import Mathlib

/-!
Shallow embedding of `modal-go/app.go` (package `modal`), the client-side
provisioning layer of libmodal: App lookup, sandbox-definition compilation
(ports, resources, volume mounts, timeout) and registry-auth configuration
for images.

Modelling conventions:
* Go `int` / `int64` values are modelled as `Int`; Go `uint32` fields hold the
  `Nat` result of the (wrapping) conversion.
* Go `float64` arithmetic (`time.Duration.Seconds`, the CPU request) is
  modelled as exact rational arithmetic over `ℚ`.
* Go maps are modelled as association lists; Go map iteration order is
  unspecified, so the list order stands for one arbitrary iteration order.
* Nilable Go pointers are modelled as `Option`; a nil-pointer dereference is
  modelled as an explicit `GoRuntimeError`.
* The gRPC client call `client.AppGetOrCreate` is abstracted as a function
  argument from the built request to `Except TransportError` of the response;
  context plumbing (`clientContext`, `context.Context`) carries no data the
  claims depend on and is elided.
-/

namespace Modal

/-- Go conversion `uint32(p)` for `p : int`: integer-to-integer conversions in
Go truncate to the target width, i.e. take the value mod 2^32. -/
def uint32OfInt (p : Int) : Nat := (p % (2 ^ 32 : Int)).toNat

/-- Go conversion `uint32(x)` for a float64 value `x`, modelled on `ℚ`: for a
representable value the conversion truncates toward zero (= `Int.floor` for
nonnegative `x`).  For negative or out-of-range values Go leaves the result
implementation-dependent; the model fixes truncate-to-floor, clamp at zero,
then wrap mod 2^32 — the claims are only evaluated on in-range values. -/
def uint32OfRat (x : ℚ) : Nat := (Int.floor x).toNat % 2 ^ 32

/-- `time.Duration` is an `int64` count of nanoseconds; `Duration.Seconds`
returns the duration as (floating-point, here: exact rational) seconds. -/
def durationSeconds (ns : Int) : ℚ := (ns : ℚ) / 1000000000

/-- Tunnel type attached to a port spec; `app.go` only ever uses
`TunnelType_TUNNEL_TYPE_H2`. -/
inductive TunnelType where
  | h2
deriving DecidableEq, Repr

/-- Wire `pb.PortSpec`: port number (uint32), unencrypted flag, optional
tunnel-type tag. -/
structure PortSpec where
  port : Nat
  unencrypted : Bool
  tunnelType : Option TunnelType
deriving DecidableEq, Repr

/-- Wire `pb.PortSpecs`: a collection of port specs. -/
structure PortSpecs where
  ports : List PortSpec
deriving DecidableEq, Repr

/-- A Modal Volume handle (only its identifier is consumed by `app.go`). -/
structure Volume where
  volumeId : String
deriving DecidableEq, Repr

/-- Wire `pb.VolumeMount`. -/
structure VolumeMount where
  volumeId : String
  mountPath : String
  allowBackgroundCommits : Bool
  readOnly : Bool
deriving DecidableEq, Repr

/-- A Modal Secret handle (only its identifier is consumed by `app.go`). -/
structure Secret where
  secretId : String
deriving DecidableEq, Repr

/-- A Modal Image handle (only its identifier is consumed by `app.go`). -/
structure Image where
  imageId : String
deriving DecidableEq, Repr

/-- Wire `pb.NetworkAccess.NetworkAccessType`; `app.go` always uses
`pb.NetworkAccess_OPEN`. -/
inductive NetworkAccessType where
  | openAccess
deriving DecidableEq, Repr

/-- Wire `pb.Resources`: milli-CPU and memory in MiB, both uint32. -/
structure Resources where
  milliCpu : Nat
  memoryMb : Nat
deriving DecidableEq, Repr

/-- `SandboxOptions` of `app.go`: CPU in physical cores (float64, modelled as
`ℚ`), memory in MiB (`int`), timeout (`time.Duration` = `int64` nanoseconds),
startup command, volume mounts (a Go map, modelled as an association list in
an arbitrary iteration order; `none` models a nil map), and the three port
lists. -/
structure SandboxOptions where
  cpu : ℚ
  memory : Int
  timeoutNs : Int
  command : List String
  volumes : Option (List (String × Volume))
  encryptedPorts : List Int
  h2Ports : List Int
  unencryptedPorts : List Int
deriving DecidableEq, Repr

/-- The Go zero value `SandboxOptions{}`, substituted when the caller passes a
nil options pointer. -/
def SandboxOptions.zero : SandboxOptions :=
  ⟨0, 0, 0, [], none, [], [], []⟩

/-- The volume-mount loop of `CreateSandbox` (app.go lines 90–101): one
`pb.VolumeMount` appended per map entry, with `AllowBackgroundCommits: true`
and `ReadOnly: false` hardcoded. A nil map yields a nil slice. -/
def volumeMountsOf (volumes : Option (List (String × Volume))) : List VolumeMount :=
  match volumes with
  | none => []
  | some vs => vs.foldl (fun acc e => acc ++ [⟨e.2.volumeId, e.1, true, false⟩]) []

/-- The three port loops of `CreateSandbox` (app.go lines 103–122): encrypted
ports (no tunnel type, `Unencrypted: false`), then H2 ports (tunnel type H2,
`Unencrypted: false`), then unencrypted ports (`Unencrypted: true`), each
appended in input order to one `openPorts` slice. -/
def openPortsOf (o : SandboxOptions) : List PortSpec :=
  let ports := o.encryptedPorts.foldl
    (fun acc p => acc ++ [⟨uint32OfInt p, false, none⟩]) []
  let ports := o.h2Ports.foldl
    (fun acc p => acc ++ [⟨uint32OfInt p, false, some TunnelType.h2⟩]) ports
  o.unencryptedPorts.foldl
    (fun acc p => acc ++ [⟨uint32OfInt p, true, none⟩]) ports

/-- app.go lines 124–129: the `pb.PortSpecs` message is built only when
`len(openPorts) > 0`; otherwise the field stays nil (absent). -/
def portSpecsOf (o : SandboxOptions) : Option PortSpecs :=
  let openPorts := openPortsOf o
  if 0 < openPorts.length then some ⟨openPorts⟩ else none

/-- Wire `pb.Sandbox` definition as populated by `CreateSandbox`
(app.go lines 133–146). -/
structure SandboxDefinition where
  entrypointArgs : List String
  imageId : String
  timeoutSecs : Nat
  networkAccessType : NetworkAccessType
  resources : Resources
  volumeMounts : List VolumeMount
  openPorts : Option PortSpecs
deriving DecidableEq, Repr

/-- The definition `CreateSandbox` compiles and sends (app.go lines 131–147):
entrypoint args, image id, `TimeoutSecs: uint32(options.Timeout.Seconds())`,
open network access, `MilliCpu: uint32(1000 * options.CPU)`,
`MemoryMb: uint32(options.Memory)`, the volume mounts and the optional port
specs.  A nil options pointer is replaced by the zero options first. -/
def compileSandboxDefinition (image : Image) (options : Option SandboxOptions) :
    SandboxDefinition :=
  let o := options.getD SandboxOptions.zero
  ⟨o.command, image.imageId,
    uint32OfRat (durationSeconds o.timeoutNs),
    NetworkAccessType.openAccess,
    ⟨uint32OfRat (1000 * o.cpu), uint32OfInt o.memory⟩,
    volumeMountsOf o.volumes,
    portSpecsOf o⟩

/-- `LookupOptions` of `app.go`. -/
structure LookupOptions where
  environment : String
  createIfMissing : Bool
deriving DecidableEq, Repr

/-- Wire `pb.ObjectCreationType`, restricted to the two values `AppLookup`
uses. -/
inductive ObjectCreationType where
  | unspecified
  | createIfMissing
deriving DecidableEq, Repr

/-- Wire `pb.AppGetOrCreateRequest` as built by `AppLookup`
(app.go lines 68–72). -/
structure AppGetOrCreateRequest where
  appName : String
  environmentName : String
  objectCreationType : ObjectCreationType
deriving DecidableEq, Repr

/-- Wire `pb.AppGetOrCreateResponse` (only `AppId` is consumed). -/
structure AppGetOrCreateResponse where
  appId : String
deriving DecidableEq, Repr

/-- gRPC status codes are numeric (`google.golang.org/grpc/codes`). -/
def codeOK : Nat := 0

/-- `codes.Unknown`, the code `status.FromError` reports for an error value
that carries no gRPC status. -/
def codeUnknown : Nat := 2

/-- `codes.NotFound`. -/
def codeNotFound : Nat := 5

/-- An error value returned by the transport: either an error carrying a gRPC
status (with its code and message), or any other Go error value. -/
inductive TransportError where
  | statusError (code : Nat) (message : String)
  | nonStatusError (message : String)
deriving DecidableEq, Repr

/-- `status.FromError` of `google.golang.org/grpc/status`: on nil it reports
the OK code with ok=true; on a status-carrying error, that status's code with
ok=true; on any other error, `codes.Unknown` with ok=false. -/
def statusFromError : Option TransportError → Nat × Bool
  | none => (codeOK, true)
  | some (TransportError.statusError c _) => (c, true)
  | some (TransportError.nonStatusError _) => (codeUnknown, false)

/-- An App handle; the `context.Context` member carries no data the claims
depend on and is elided. -/
structure App where
  appId : String
deriving DecidableEq, Repr

/-- Outcome of `AppLookup`: an App handle, the typed `NotFoundError` built at
app.go line 75, or the transport's error value returned unmodified. -/
inductive AppLookupResult where
  | ok (app : App)
  | notFoundError (message : String)
  | err (e : TransportError)
deriving DecidableEq, Repr

/-- Modelled from the spec: the helper `environmentName` (defined outside
`app.go`) resolves the environment option for the request; no claim depends
on its value, so it is modelled as the identity on the provided string. -/
def environmentName (e : String) : String := e

/-- The `pb.AppGetOrCreateRequest` that `AppLookup` builds for a given name
and options (app.go lines 54–72): a nil options pointer is replaced by the
zero `LookupOptions`, and the creation type is `CREATE_IF_MISSING` iff
`CreateIfMissing` is set. -/
def appGetOrCreateRequestOf (name : String) (options : Option LookupOptions) :
    AppGetOrCreateRequest :=
  let opts := options.getD ⟨"", false⟩
  let creationType := if opts.createIfMissing then ObjectCreationType.createIfMissing
    else ObjectCreationType.unspecified
  ⟨name, environmentName opts.environment, creationType⟩

/-- `AppLookup` (app.go lines 53–82), with the gRPC call
`client.AppGetOrCreate` abstracted as the function `rpc` from the built
request to its result.  If the returned error carries status `NotFound`, a
`NotFoundError` naming the app is returned; otherwise a non-nil error is
returned unmodified; on success the response's app id is wrapped in an App
handle. -/
def AppLookup (name : String) (options : Option LookupOptions)
    (rpc : AppGetOrCreateRequest → Except TransportError AppGetOrCreateResponse) :
    AppLookupResult :=
  let result := rpc (appGetOrCreateRequestOf name options)
  let errValue : Option TransportError :=
    match result with
    | Except.error e => some e
    | Except.ok _ => none
  let s := statusFromError errValue
  if s.2 && s.1 = codeNotFound then
    AppLookupResult.notFoundError ("app \x27" ++ name ++ "\x27 not found")
  else
    match result with
    | Except.error e => AppLookupResult.err e
    | Except.ok resp => AppLookupResult.ok ⟨resp.appId⟩

/-- Wire `pb.RegistryAuthType`, restricted to the three values `app.go`
uses. -/
inductive RegistryAuthType where
  | staticCreds
  | aws
  | gcp
deriving DecidableEq, Repr

/-- Wire `pb.ImageRegistryConfig`. -/
structure ImageRegistryConfig where
  registryAuthType : RegistryAuthType
  secretId : String
deriving DecidableEq, Repr

/-- `ImageFromRegistryOptions` of `app.go`; the `Secret` pointer is nilable. -/
structure ImageFromRegistryOptions where
  secret : Option Secret
deriving DecidableEq, Repr

/-- A Go runtime panic reachable in `app.go`. -/
inductive GoRuntimeError where
  | nilPointerDereference
deriving DecidableEq, Repr

/-- The `pb.ImageRegistryConfig` that `ImageFromRegistry` (app.go lines
157–169) passes to `fromRegistryInternal`: nil when no secret is given,
otherwise static-credentials auth with the secret's id.  A nil options
pointer is replaced by the zero options. -/
def imageFromRegistryAuth (options : Option ImageFromRegistryOptions) :
    Option ImageRegistryConfig :=
  let opts := options.getD ⟨none⟩
  match opts.secret with
  | some secret => some ⟨RegistryAuthType.staticCreds, secret.secretId⟩
  | none => none

/-- The `pb.ImageRegistryConfig` that `ImageFromAwsEcr` (app.go lines
172–178) passes to `fromRegistryInternal`.  The `secret *Secret` parameter is
a nilable pointer; `secret.SecretId` on a nil pointer is a runtime
nil-pointer dereference, modelled as `Except.error`. -/
def imageFromAwsEcrAuth (secret : Option Secret) :
    Except GoRuntimeError ImageRegistryConfig :=
  match secret with
  | none => Except.error GoRuntimeError.nilPointerDereference
  | some s => Except.ok ⟨RegistryAuthType.aws, s.secretId⟩

/-- The `pb.ImageRegistryConfig` that `ImageFromGcpArtifactRegistry`
(app.go lines 181–187) passes to `fromRegistryInternal`; nil handling as in
`imageFromAwsEcrAuth`. -/
def imageFromGcpArtifactRegistryAuth (secret : Option Secret) :
    Except GoRuntimeError ImageRegistryConfig :=
  match secret with
  | none => Except.error GoRuntimeError.nilPointerDereference
  | some s => Except.ok ⟨RegistryAuthType.gcp, s.secretId⟩

/-! ## Helper lemmas -/

theorem foldl_append_map {α β : Type} (f : α → β) (l : List α) (init : List β) :
    l.foldl (fun acc p => acc ++ [f p]) init = init ++ l.map f := by
  induction l generalizing init with
  | nil => simp
  | cons x xs ih => simp [List.foldl_cons, ih]

theorem openPortsOf_eq (o : SandboxOptions) :
    openPortsOf o =
      o.encryptedPorts.map (fun p => ⟨uint32OfInt p, false, none⟩)
      ++ o.h2Ports.map (fun p => ⟨uint32OfInt p, false, some TunnelType.h2⟩)
      ++ o.unencryptedPorts.map (fun p => ⟨uint32OfInt p, true, none⟩) := by
  simp [openPortsOf, foldl_append_map]

theorem openPortsOf_nil_iff (o : SandboxOptions) :
    openPortsOf o = [] ↔
      o.encryptedPorts = [] ∧ o.h2Ports = [] ∧ o.unencryptedPorts = [] := by
  rw [openPortsOf_eq]
  simp

theorem portSpecsOf_none_iff (o : SandboxOptions) :
    portSpecsOf o = none ↔ openPortsOf o = [] := by
  simp only [portSpecsOf]
  rcases h : openPortsOf o with _ | ⟨p, ps⟩ <;> simp [h]

theorem uint32OfRat_eq_floor (x : ℚ) (h0 : 0 ≤ x) (h1 : Int.floor x < 2 ^ 32) :
    (uint32OfRat x : Int) = Int.floor x := by
  unfold uint32OfRat
  have hf0 : 0 ≤ Int.floor x := Int.floor_nonneg.mpr h0
  have hlt : (Int.floor x).toNat < 2 ^ 32 := by omega
  rw [Nat.mod_eq_of_lt hlt]
  exact Int.toNat_of_nonneg hf0

/-! ## Claim theorems -/

/-- Claim C1: the port-spec sequence compiled by CreateSandbox is
category-segregated and order-preserving — first every encrypted port in
input order (tunnel type unset, unencrypted=false), then every H2 port in
input order (tunnel type H2, unencrypted=false), then every unencrypted port
in input order (unencrypted=true, tunnel type unset). -/
theorem createSandbox_port_classification (o : SandboxOptions) :
    openPortsOf o =
      o.encryptedPorts.map (fun p => ⟨uint32OfInt p, false, none⟩)
      ++ o.h2Ports.map (fun p => ⟨uint32OfInt p, false, some TunnelType.h2⟩)
      ++ o.unencryptedPorts.map (fun p => ⟨uint32OfInt p, true, none⟩) :=
  openPortsOf_eq o

/-- Claim C2: the compiled definition's port-spec field is absent (none) if
and only if all three port lists are empty; when any list is non-empty the
field is present and holds exactly the classified open-port sequence. -/
theorem createSandbox_portSpecs_absence (image : Image) (o : SandboxOptions) :
    ((compileSandboxDefinition image (some o)).openPorts = none ↔
      o.encryptedPorts = [] ∧ o.h2Ports = [] ∧ o.unencryptedPorts = [])
    ∧ (¬(o.encryptedPorts = [] ∧ o.h2Ports = [] ∧ o.unencryptedPorts = []) →
      (compileSandboxDefinition image (some o)).openPorts = some ⟨openPortsOf o⟩) := by
  have hdef : (compileSandboxDefinition image (some o)).openPorts = portSpecsOf o := rfl
  constructor
  · rw [hdef]
    exact (portSpecsOf_none_iff o).trans (openPortsOf_nil_iff o)
  · intro hne
    have hlen : 0 < (openPortsOf o).length :=
      List.length_pos.mpr (fun h => hne ((openPortsOf_nil_iff o).mp h))
    rw [hdef]
    simp [portSpecsOf, hlen]

/-- Witness for C2 at concrete inputs: all-empty port lists give an absent
field; a single encrypted port 8080 gives a present field with one spec. -/
theorem createSandbox_portSpecs_absence_witness :
    (compileSandboxDefinition ⟨"im-1"⟩
        (some ⟨0, 0, 0, [], none, [], [], []⟩)).openPorts = none
    ∧ (compileSandboxDefinition ⟨"im-1"⟩
        (some ⟨0, 0, 0, [], none, [8080], [], []⟩)).openPorts
      = some ⟨[⟨8080, false, none⟩]⟩ := by
  constructor
  · exact (createSandbox_portSpecs_absence ⟨"im-1"⟩
      ⟨0, 0, 0, [], none, [], [], []⟩).1.mpr ⟨rfl, rfl, rfl⟩
  · have h := (createSandbox_portSpecs_absence ⟨"im-1"⟩
      ⟨0, 0, 0, [], none, [8080], [], []⟩).2 (by simp)
    rw [h, openPortsOf_eq]
    simp [uint32OfInt]

/-- Claim C7: the compiled definition carries exactly one VolumeMount per
volume-mapping entry, with that entry's mount path and volume id, and every
mount has allowBackgroundCommits=true and readOnly=false. -/
theorem createSandbox_volume_mounts (image : Image) (o : SandboxOptions)
    (vs : List (String × Volume)) (hv : o.volumes = some vs) :
    (compileSandboxDefinition image (some o)).volumeMounts
      = vs.map (fun e => ⟨e.2.volumeId, e.1, true, false⟩)
    ∧ (compileSandboxDefinition image (some o)).volumeMounts.length = vs.length
    ∧ ∀ m ∈ (compileSandboxDefinition image (some o)).volumeMounts,
        m.allowBackgroundCommits = true ∧ m.readOnly = false := by
  have hdef : (compileSandboxDefinition image (some o)).volumeMounts
      = volumeMountsOf o.volumes := rfl
  have h : (compileSandboxDefinition image (some o)).volumeMounts
      = vs.map (fun e => ⟨e.2.volumeId, e.1, true, false⟩) := by
    rw [hdef, hv]
    simp [volumeMountsOf, foldl_append_map]
  refine ⟨h, by rw [h]; simp, ?_⟩
  intro m hm
  rw [h] at hm
  simp only [List.mem_map] at hm
  obtain ⟨e, _, rfl⟩ := hm
  exact ⟨rfl, rfl⟩

/-- Witness for C7 at a concrete one-entry mapping. -/
theorem createSandbox_volume_mounts_witness :
    (compileSandboxDefinition ⟨"im-1"⟩
        (some ⟨0, 0, 0, [], some [("/data", ⟨"vo-1"⟩)], [], [], []⟩)).volumeMounts
      = [⟨"vo-1", "/data", true, false⟩] := by
  have h := (createSandbox_volume_mounts ⟨"im-1"⟩
    ⟨0, 0, 0, [], some [("/data", ⟨"vo-1"⟩)], [], [], []⟩ [("/data", ⟨"vo-1"⟩)] rfl).1
  simpa using h

/-- Claim C10: CreateSandbox performs no range or sign validation — every
port number (from any of the three lists, in any value range) reaches the
wire as its value mod 2^32, and the memory field likewise carries the memory
option mod 2^32. -/
theorem createSandbox_uint32_wrapping (image : Image) (o : SandboxOptions) :
    ((openPortsOf o).map PortSpec.port
      = (o.encryptedPorts ++ o.h2Ports ++ o.unencryptedPorts).map
          (fun p => (p % (2 ^ 32 : Int)).toNat))
    ∧ (compileSandboxDefinition image (some o)).resources.memoryMb
        = (o.memory % (2 ^ 32 : Int)).toNat := by
  refine ⟨?_, rfl⟩
  rw [openPortsOf_eq]
  simp [uint32OfInt, Function.comp_def]

/-- Claim C5: for every (nonnegative, in-range) timeout duration, the
compiled definition's timeout field equals the floor of the duration
expressed in seconds — sub-second remainders are dropped, not rounded. -/
theorem createSandbox_timeout_truncation (image : Image) (o : SandboxOptions)
    (h0 : 0 ≤ o.timeoutNs)
    (h1 : Int.floor (durationSeconds o.timeoutNs) < 2 ^ 32) :
    ((compileSandboxDefinition image (some o)).timeoutSecs : Int)
      = Int.floor (durationSeconds o.timeoutNs) := by
  have hdef : (compileSandboxDefinition image (some o)).timeoutSecs
      = uint32OfRat (durationSeconds o.timeoutNs) := rfl
  rw [hdef]
  refine uint32OfRat_eq_floor _ ?_ h1
  unfold durationSeconds
  refine div_nonneg ?_ (by norm_num)
  exact_mod_cast h0

/-- Witness for C5: a 90.7-second timeout (90700000000 ns) compiles to 90
whole seconds. -/
theorem createSandbox_timeout_truncation_witness :
    ((compileSandboxDefinition ⟨"im-1"⟩
        (some ⟨0, 0, 90700000000, [], none, [], [], []⟩)).timeoutSecs : Int) = 90 := by
  have hfl : Int.floor (durationSeconds (90700000000 : Int)) = 90 := by
    unfold durationSeconds
    rw [show ((90700000000 : Int) : ℚ) / 1000000000
        = ((90700000000 : ℤ) : ℚ) / ((1000000000 : ℕ) : ℚ) by norm_num,
      Rat.floor_intCast_div_natCast]
    decide
  have h := createSandbox_timeout_truncation ⟨"im-1"⟩
    ⟨0, 0, 90700000000, [], none, [], [], []⟩ (by norm_num) (by rw [hfl]; norm_num)
  rw [h, hfl]

/-- Claim C6: for every (in-range) CPU request c ≥ 0 the compiled milli-CPU
field equals floor(1000·c), and the (in-range) memory request in MiB is
passed through unchanged. -/
theorem createSandbox_resource_conversion (image : Image) (o : SandboxOptions)
    (hc0 : 0 ≤ o.cpu) (hc1 : Int.floor (1000 * o.cpu) < 2 ^ 32)
    (hm0 : 0 ≤ o.memory) (hm1 : o.memory < 2 ^ 32) :
    ((compileSandboxDefinition image (some o)).resources.milliCpu : Int)
      = Int.floor (1000 * o.cpu)
    ∧ ((compileSandboxDefinition image (some o)).resources.memoryMb : Int)
      = o.memory := by
  constructor
  · have hdef : (compileSandboxDefinition image (some o)).resources.milliCpu
        = uint32OfRat (1000 * o.cpu) := rfl
    rw [hdef]
    exact uint32OfRat_eq_floor _ (mul_nonneg (by norm_num) hc0) hc1
  · have hdef : (compileSandboxDefinition image (some o)).resources.memoryMb
        = uint32OfInt o.memory := rfl
    rw [hdef]
    unfold uint32OfInt
    rw [Int.emod_eq_of_lt hm0 hm1]
    exact Int.toNat_of_nonneg hm0

/-- Witness for C6: a 0.25-core CPU request compiles to 250 milli-CPU and a
1024 MiB memory request passes through as 1024. -/
theorem createSandbox_resource_conversion_witness :
    ((compileSandboxDefinition ⟨"im-1"⟩
        (some ⟨1/4, 1024, 0, [], none, [], [], []⟩)).resources.milliCpu : Int) = 250
    ∧ ((compileSandboxDefinition ⟨"im-1"⟩
        (some ⟨1/4, 1024, 0, [], none, [], [], []⟩)).resources.memoryMb : Int) = 1024 := by
  have hfl : Int.floor ((1000 : ℚ) * (1/4)) = 250 := by norm_num
  have h := createSandbox_resource_conversion ⟨"im-1"⟩
    ⟨1/4, 1024, 0, [], none, [], [], []⟩ (by norm_num) (by rw [hfl]; norm_num)
    (by norm_num) (by norm_num)
  exact ⟨by rw [h.1, hfl], h.2⟩

/-- Claim C3: when creation is not requested and the transport reports
NotFound, AppLookup returns a NotFoundError whose message contains the app
name; when creation is requested and the transport succeeds, AppLookup
returns an App handle carrying the returned app id and no error. -/
theorem appLookup_notFound_and_createIfMissing (name env : String)
    (rpc : AppGetOrCreateRequest → Except TransportError AppGetOrCreateResponse) :
    (∀ msg, rpc (appGetOrCreateRequestOf name (some ⟨env, false⟩))
        = Except.error (TransportError.statusError codeNotFound msg) →
      ∃ pre post, AppLookup name (some ⟨env, false⟩) rpc
        = AppLookupResult.notFoundError (pre ++ name ++ post))
    ∧ (∀ resp, rpc (appGetOrCreateRequestOf name (some ⟨env, true⟩)) = Except.ok resp →
      AppLookup name (some ⟨env, true⟩) rpc = AppLookupResult.ok ⟨resp.appId⟩) := by
  constructor
  · intro msg hrpc
    refine ⟨"app \x27", "\x27 not found", ?_⟩
    simp [AppLookup, hrpc, statusFromError]
  · intro resp hrpc
    simp [AppLookup, hrpc, statusFromError, codeOK, codeNotFound]

/-- Witness for C3 against a transport that reports NotFound exactly when
creation is not requested: lookup without creation yields the typed
NotFoundError, lookup with creation yields the App handle. -/
theorem appLookup_notFound_and_createIfMissing_witness :
    (∃ pre post, AppLookup "main" (some ⟨"dev", false⟩)
        (fun req => if req.objectCreationType = ObjectCreationType.unspecified
          then Except.error (TransportError.statusError 5 "no such app")
          else Except.ok ⟨"ap-123"⟩)
      = AppLookupResult.notFoundError (pre ++ "main" ++ post))
    ∧ AppLookup "main" (some ⟨"dev", true⟩)
        (fun req => if req.objectCreationType = ObjectCreationType.unspecified
          then Except.error (TransportError.statusError 5 "no such app")
          else Except.ok ⟨"ap-123"⟩)
      = AppLookupResult.ok ⟨"ap-123"⟩ := by
  have h := appLookup_notFound_and_createIfMissing "main" "dev"
    (fun req => if req.objectCreationType = ObjectCreationType.unspecified
      then Except.error (TransportError.statusError 5 "no such app")
      else Except.ok ⟨"ap-123"⟩)
  exact ⟨h.1 "no such app" rfl, h.2 ⟨"ap-123"⟩ rfl⟩

/-- Claim C4: AppLookup translates exactly one transport error class.  Under
the transport's documented contract (NotFound is only reported for a lookup
without creation), an error carrying the NotFound status becomes the typed
NotFoundError — and then creation was indeed not requested — while every
other transport error value is returned to the caller unmodified. -/
theorem appLookup_error_passthrough (name : String) (options : Option LookupOptions)
    (rpc : AppGetOrCreateRequest → Except TransportError AppGetOrCreateResponse)
    (hcontract : ∀ req msg,
      rpc req = Except.error (TransportError.statusError codeNotFound msg) →
      req.objectCreationType = ObjectCreationType.unspecified) :
    ∀ e, rpc (appGetOrCreateRequestOf name options) = Except.error e →
      ((∃ msg, e = TransportError.statusError codeNotFound msg) →
        AppLookup name options rpc
          = AppLookupResult.notFoundError ("app \x27" ++ name ++ "\x27 not found")
        ∧ (options.getD ⟨"", false⟩).createIfMissing = false)
      ∧ ((∀ msg, e ≠ TransportError.statusError codeNotFound msg) →
        AppLookup name options rpc = AppLookupResult.err e) := by
  intro e hrpc
  constructor
  · rintro ⟨msg, rfl⟩
    constructor
    · simp [AppLookup, hrpc, statusFromError]
    · have h := hcontract _ msg hrpc
      simp only [appGetOrCreateRequestOf] at h
      by_cases hc : (options.getD ⟨"", false⟩).createIfMissing
      · simp [hc] at h
      · simpa using hc
  · intro hne
    cases e with
    | statusError c msg =>
      have hc : ¬(c = codeNotFound) := fun h => hne msg (by rw [h])
      simp [AppLookup, hrpc, statusFromError, hc]
    | nonStatusError msg =>
      simp [AppLookup, hrpc, statusFromError, codeUnknown, codeNotFound]

/-- Witness for C4: a PermissionDenied-style status error (code 7) passes
through AppLookup unmodified. -/
theorem appLookup_error_passthrough_witness :
    AppLookup "main" none
        (fun _ => Except.error (TransportError.statusError 7 "denied"))
      = AppLookupResult.err (TransportError.statusError 7 "denied") := by
  have h := (appLookup_error_passthrough "main" none
    (fun _ => Except.error (TransportError.statusError 7 "denied"))
    (fun req msg hreq => by simp [codeNotFound] at hreq)
    (TransportError.statusError 7 "denied") rfl).2
  exact h (fun msg hmsg => by simp [codeNotFound] at hmsg)

/-- Claim C8: ImageFromAwsEcr and ImageFromGcpArtifactRegistry always attach
an auth configuration carrying the given secret's id and the matching
auth-type enum; ImageFromRegistry with no secret attaches no auth
configuration at all, and with a secret attaches static-credentials auth and
that secret's id. -/
theorem image_registry_auth_config (s : Secret) :
    imageFromAwsEcrAuth (some s) = Except.ok ⟨RegistryAuthType.aws, s.secretId⟩
    ∧ imageFromGcpArtifactRegistryAuth (some s)
        = Except.ok ⟨RegistryAuthType.gcp, s.secretId⟩
    ∧ imageFromRegistryAuth none = none
    ∧ imageFromRegistryAuth (some ⟨none⟩) = none
    ∧ imageFromRegistryAuth (some ⟨some s⟩)
        = some ⟨RegistryAuthType.staticCreds, s.secretId⟩ :=
  ⟨rfl, rfl, rfl, rfl, rfl⟩

/-- Counterexample to claim C9: ImageFromAwsEcr and
ImageFromGcpArtifactRegistry can be invoked without a secret — the secret
parameter is a nilable Go pointer, and a nil argument reaches a runtime
nil-pointer dereference at secret.SecretId, so the failure is not prevented
at the type level. -/
theorem imageFrom_cloud_registry_nil_secret_panics :
    imageFromAwsEcrAuth none = Except.error GoRuntimeError.nilPointerDereference
    ∧ imageFromGcpArtifactRegistryAuth none
        = Except.error GoRuntimeError.nilPointerDereference :=
  ⟨rfl, rfl⟩

/-- Amended C9: the AWS/GCP factories take the secret as a required
positional parameter rather than an optional options field, but the
parameter is a nilable pointer, so absence is not prevented by the type
system: a nil secret reaches a nil-pointer dereference, while every non-nil
secret produces the matching auth configuration without any runtime
failure. -/
theorem imageFrom_cloud_registry_secret_required (s : Secret) :
    imageFromAwsEcrAuth none = Except.error GoRuntimeError.nilPointerDereference
    ∧ imageFromGcpArtifactRegistryAuth none
        = Except.error GoRuntimeError.nilPointerDereference
    ∧ (imageFromAwsEcrAuth (some s)).isOk = true
    ∧ (imageFromGcpArtifactRegistryAuth (some s)).isOk = true :=
  ⟨rfl, rfl, rfl, rfl⟩

end Modal
